import Mathlib

/-!
Verification of the text-layout and balloon-geometry engine of the
`pycaptioner` package (`pycaptioner/addtext.py`).

The development is a shallow embedding of the module: text is `List Char`,
pixel quantities are rationals (Python's true division produces floats; we
model the arithmetic exactly over `ℚ`), machine failures (ZeroDivisionError,
IndexError, the two explicit ValueError raises and the NameError reachable
when a negative width skips both wrap branches) are an explicit `PyErr`
error type, and the external capabilities (PIL's `multiline_textsize`
measurement oracle, the drawing primitives, and the stdlib `textwrap`
library) appear respectively as a function parameter, an inert `Prim`
datatype of issued draw calls, and an executable model of the library's
greedy algorithm.
-/

deriving instance DecidableEq for Except

/-- RGBA color tuples as passed around by the module. -/
abbrev Color := ℤ × ℤ × ℤ × ℤ

/-- Python-level failures that the embedded code can raise. -/
inductive PyErr where
  /-- `ValueError("Image too small to fit one line of text next to it")`
  raised by `CapImg._wrap_text` in unknown-width mode. -/
  | layoutError : PyErr
  /-- `ZeroDivisionError` (e.g. `h / w` in `_calc_tail` with `w == 0`,
  `w / fx` with a zero calibration width, `h // fy` with `fy == 0`). -/
  | zeroDiv : PyErr
  /-- `IndexError` from `self._words[w]` in `_broken_words`. -/
  | indexError : PyErr
  /-- `NameError`: `lines` referenced unassigned when `w < 0` in `_wrap_text`. -/
  | nameError : PyErr
  /-- `ValueError("size=... not understood")` from `CapImg.finish`, line 261. -/
  | badSide : PyErr
  /-- `ValueError("Bad value for side: ...")` from `CapImg.finish`, line 281
  (unreachable: the first dispatch already validated the side). -/
  | badSide2 : PyErr
deriving DecidableEq, Repr

/-- Drawing primitives issued against the PIL `ImageDraw` object
(external capability; we record the calls). -/
inductive Prim where
  | polygon : List (ℚ × ℚ) → Color → Color → Prim
  | line : List (ℚ × ℚ) → Color → ℤ → Prim
  | rectangle : (ℚ × ℚ × ℚ × ℚ) → Color → Prim
  | arc : (ℚ × ℚ × ℚ × ℚ) → ℤ → ℤ → Color → Prim
  | pieslice : (ℚ × ℚ × ℚ × ℚ) → ℤ → ℤ → Color → Color → Prim
  | multiline_text : (ℚ × ℚ) → List Char → Color → ℤ → Prim
deriving DecidableEq, Repr

/-- The `Side` enumeration of `addtext.py` (integer constants 1..12). -/
def Side.TOP : ℤ := 1

def Side.RIGHT : ℤ := 2

def Side.BOTTOM : ℤ := 3

def Side.LEFT : ℤ := 4

def Side.NW : ℤ := 5

def Side.NE : ℤ := 6

def Side.SE : ℤ := 7

def Side.SW : ℤ := 8

def Side.N : ℤ := 9

def Side.E : ℤ := 10

def Side.W : ℤ := 11

def Side.S : ℤ := 12

/-- `Side.is_inner`: `v >= cls.NW`, i.e. `5 ≤ v`. -/
def Side.is_inner (v : ℤ) : Bool := 5 ≤ v

/-- The measurement oracle: PIL's `draw.multiline_textsize(text, font=..,
spacing=..)` for the configured font, as a function of the text and the
spacing argument, returning integer pixel dimensions `(width, height)`.
External capability, hence a parameter of the embedding. -/
abbrev Measure := List Char → ℤ → ℤ × ℤ

/-- PIL's default value of the `spacing` keyword of `multiline_textsize`,
used where the source omits the argument (`addtext.py` line 154). -/
def pil_default_spacing : ℤ := 4

/-- ASCII apostrophe (the calibration string of the source contains two). -/
def apos : Char := Char.ofNat 39

/-- The 40-character calibration string of `CapImg._wrap_text`:
`The quick 'fox' jumps over the lazy dog.` -/
def calibStr : List Char :=
  "The quick ".data ++ [apos] ++ "fox".data ++ [apos] ++ " jumps over the lazy dog.".data

/-- Python `str.strip()`: remove leading and trailing whitespace. -/
def pyStrip (l : List Char) : List Char :=
  ((l.dropWhile Char.isWhitespace).reverse.dropWhile Char.isWhitespace).reverse

/-- A word character in the sense of the regex `\w`: alphanumeric or underscore. -/
def isWordChar (c : Char) : Bool := c.isAlphanum || c = '_'

/-- Helper of `findWords`: accumulate the current (reversed) run. -/
def findWordsAux : List Char → List Char → List (List Char)
  | cur, [] => if cur = [] then [] else [cur.reverse]
  | cur, c :: cs =>
    if isWordChar c then findWordsAux (c :: cur) cs
    else if cur = [] then findWordsAux [] cs
    else cur.reverse :: findWordsAux [] cs

/-- `re.findall('\w+', s)`: the maximal runs of word characters, in order. -/
def findWords (l : List Char) : List (List Char) := findWordsAux [] l

/-! ## Model of Python's `textwrap.wrap`

`textwrap` is standard-library code, external to the repository; the model
below implements its default-configuration greedy algorithm
(`TextWrapper._wrap_chunks` with `replace_whitespace`, `drop_whitespace` and
`break_long_words` on, empty indents): whitespace is normalised to single
spaces, the text splits into chunks (runs of spaces / runs of non-spaces;
the hyphen clauses of the chunking regex are not modelled, so the model is
faithful for hyphen-free text), and chunks are packed greedily into lines of
at most `width` characters.  Widths are rational because the known-width
call site passes `w / fx`, a Python float; when a long word is broken the
model takes `⌊space_left⌋` characters (the integer call sites of the
unknown-width search are the only ones that exercise this branch with the
claims below).  Call sites guarantee `width > 0`, so the library's
`ValueError` on nonpositive widths is not modelled. -/

/-- `replace_whitespace`: any whitespace character becomes a space. -/
def toSpace (c : Char) : Char := if c.isWhitespace then ' ' else c

/-- Helper of `chunkify`: group consecutive characters of equal space-ness. -/
def chunkifyAux : List Char → List Char → List (List Char)
  | cur, [] => if cur = [] then [] else [cur.reverse]
  | cur, c :: cs =>
    match cur with
    | [] => chunkifyAux [c] cs
    | d :: _ =>
      if ((d = ' ') = (c = ' ')) then chunkifyAux (c :: cur) cs
      else cur.reverse :: chunkifyAux [c] cs

/-- Split whitespace-normalised text into chunks: alternating runs of
spaces and runs of non-space characters. -/
def chunkify (l : List Char) : List (List Char) := chunkifyAux [] l

/-- Greedy phase: take chunks while the accumulated length stays `≤ width`. -/
def takeChunks (width : ℚ) : ℚ → List (List Char) → List (List Char) × List (List Char)
  | _, [] => ([], [])
  | cl, ch :: rest =>
    if cl + ch.length ≤ width then
      let tr := takeChunks width (cl + ch.length) rest
      (ch :: tr.1, tr.2)
    else ([], ch :: rest)

/-- Total length of a list of chunks. -/
def chunksLen (l : List (List Char)) : ℕ := l.foldl (fun a c => a + c.length) 0

/-- Is this chunk pure whitespace (`chunk.strip() == ''`)? -/
def isBlankChunk (c : List Char) : Bool := pyStrip c = []

/-- `drop_whitespace`: drop a trailing all-whitespace chunk from the line. -/
def dropTrailingBlank (cur : List (List Char)) : List (List Char) :=
  match cur.getLast? with
  | some lastc => if isBlankChunk lastc then cur.dropLast else cur
  | none => cur

/-- One `_wrap_chunks` outer iteration plus recursion, fuelled (the fuel is
an upper bound on the number of iterations; each iteration consumes at
least one chunk or one character). `hasLines` records whether a line has
been emitted already (guards the leading-whitespace drop). -/
def wrapChunksLoop (width : ℚ) : List (List Char) → Bool → ℕ → List (List Char)
  | _, _, 0 => []
  | [], _, _ => []
  | c0 :: rest0, hasLines, Nat.succ fuel =>
    let chs1 := if hasLines && isBlankChunk c0 then rest0 else c0 :: rest0
    let tr := takeChunks width 0 chs1
    let cur2rest2 : List (List Char) × List (List Char) :=
      match tr.2 with
      | ch :: r2 =>
        if (ch.length : ℚ) > width then
          let cl : ℚ := chunksLen tr.1
          let sl : ℚ := if width < 1 then 1 else width - cl
          let k : ℕ := (Rat.floor sl).toNat
          (tr.1 ++ [ch.take k], ch.drop k :: r2)
        else (tr.1, tr.2)
      | [] => (tr.1, [])
    let cur3 := dropTrailingBlank cur2rest2.1
    if cur3 = [] then wrapChunksLoop width cur2rest2.2 hasLines fuel
    else cur3.flatten :: wrapChunksLoop width cur2rest2.2 true fuel

/-- Model of `textwrap.wrap(text, width)` (default options). -/
def textwrap (text : List Char) (width : ℚ) : List (List Char) :=
  let chunks := chunkify (text.map toSpace)
  wrapChunksLoop width chunks false (chunksLen chunks + chunks.length + 1)

/-! ## `CapImg._wrap`: paragraph-aware wrapping -/

/-- Python `text.split('//')` specialised to the two-character paragraph
marker of `CapImg` (`paragraph_marker = '//'`): non-overlapping left-to-right
splitting. -/
def splitMarker : List Char → List (List Char)
  | [] => [[]]
  | '/' :: '/' :: rest => [] :: splitMarker rest
  | c :: rest =>
    match splitMarker rest with
    | [] => [[c]]
    | l :: ls => (c :: l) :: ls

/-- Python `'//' in text`. -/
def hasMarker : List Char → Bool
  | [] => false
  | '/' :: '/' :: _ => true
  | _ :: rest => hasMarker rest

/-- `CapImg._wrap(text, width)` (`addtext.py` lines 157-167): if the text has
no paragraph marker, wrap it directly; otherwise wrap each `//`-separated
segment independently, an empty segment contributing one literal blank line. -/
def CapImg.wrap (text : List Char) (width : ℚ) : List (List Char) :=
  if ¬ hasMarker text then textwrap text width
  else
    (splitMarker text).flatMap fun para =>
      if para = [] then [[]] else textwrap para width

/-! ## `CapImg._broken_words` -/

/-- Result of scanning one line's word tokens in `_broken_words`: an early
`return` with an answer, a fall-through to the next line carrying the updated
index `w`, or an `IndexError`. -/
inductive BwStep where
  | ans : Bool → BwStep
  | cont : ℕ → BwStep
  | err : BwStep
deriving DecidableEq, Repr

/-- The inner `for lw in line_words` loop of `_broken_words` (lines 176-183):
`self._words[w]` is read before any bounds check (`IndexError` when `w` is
out of range, which requires `ws = []`); a mismatch returns `True`; after a
match the index advances and the function returns `False` as soon as every
word of the original text has been matched. -/
def CapImg.bwWords (ws : List (List Char)) : ℕ → List (List Char) → BwStep
  | w, [] => .cont w
  | w, lw :: rest =>
    if h : w < ws.length then
      if ws.get ⟨w, h⟩ ≠ lw then .ans true
      else if w + 1 = ws.length then .ans false
      else CapImg.bwWords ws (w + 1) rest
    else .err

/-- The outer `for line in lines` loop of `_broken_words` (lines 174-183);
falls off the end with `False`. -/
def CapImg.bwLines (ws : List (List Char)) : ℕ → List (List Char) → Option Bool
  | _, [] => some false
  | w, line :: rest =>
    match CapImg.bwWords ws w (findWords line) with
    | .ans b => some b
    | .err => none
    | .cont w2 => CapImg.bwLines ws w2 rest

/-- `CapImg._broken_words(text, lines)` (lines 169-184), with the
`self._words` memo made explicit: `words` is the cached token list (`none`
models `self._words is None`; Python's `if not self._words` also recomputes
when the cached list is empty).  Returns the boolean together with the cache
left behind, or `none` for an `IndexError`. -/
def CapImg.broken_words (words : Option (List (List Char))) (text : List Char)
    (lines : List (List Char)) : Option (Bool × List (List Char)) :=
  let ws := match words with
    | none => findWords text
    | some l => if l.isEmpty then findWords text else l
  (CapImg.bwLines ws 0 lines).map fun b => (b, ws)

/-! ## `CapImg._wrap_text` -/

/-- The `while wrap_width < n` search loop of `_wrap_text` in unknown-width
mode (lines 145-151): wrap at the current character width, accept the
candidate when it respects the line budget and breaks no word, otherwise
widen by one character; once `wrap_width` reaches `n` the lines of the last
iteration (initially `[]`) are kept.  `cache` threads the `self._words`
memo of `_broken_words`. -/
def CapImg.wrapSearch (text : List Char) (n maxl : ℤ) (ww : ℤ)
    (cache : Option (List (List Char))) (lines : List (List Char)) :
    Except PyErr (List (List Char)) :=
  if h : ww < n then
    let lines2 := CapImg.wrap text (ww : ℚ)
    if (lines2.length : ℤ) ≤ maxl then
      match CapImg.broken_words cache text lines2 with
      | none => .error .indexError
      | some (b, cache2) =>
        if b then CapImg.wrapSearch text n maxl (ww + 1) (some cache2) lines2
        else .ok lines2
    else CapImg.wrapSearch text n maxl (ww + 1) cache lines2
  else .ok lines
termination_by (n - ww).toNat
decreasing_by all_goals omega

/-- `CapImg._wrap_text(w, h)` (lines 121-155).  `measure` is the PIL
measurement oracle for the configured font, `font_spc` the configured line
spacing, `texts` the accumulated `self._text` fragments.  Mirrors the
source: average character width from the 40-character calibration string
divided by 37; known-width mode wraps once at `w / fx` characters
(`ZeroDivisionError` when the calibration width is zero); unknown-width
mode fails with the layout `ValueError` when `h` is below one line's
height, divides by zero when `fy` (or the derived line budget) is zero, and
otherwise runs the widening search; `w < 0` leaves `lines` unassigned
(`NameError`).  The final dimensions re-measure the joined wrapped string
with the *default* spacing (the source omits the `spacing` argument on
line 154). -/
def CapImg.wrap_text (measure : Measure) (font_spc : ℤ) (texts : List (List Char))
    (w h : ℚ) : Except PyErr (List Char × (ℤ × ℤ)) :=
  let c := measure calibStr font_spc
  let fx : ℚ := (c.1 : ℚ) / 37
  let fy : ℤ := c.2
  let text := pyStrip (List.intercalate [' '] texts)
  let linesE : Except PyErr (List (List Char)) :=
    if 0 < w then
      if fx = 0 then .error .zeroDiv
      else .ok (CapImg.wrap text (w / fx))
    else if w = 0 then
      if h < (fy : ℚ) then .error .layoutError
      else if fy = 0 then .error .zeroDiv
      else
        let max_lines : ℤ := Rat.floor (h / (fy : ℚ))
        if max_lines = 0 then .error .zeroDiv
        else
          let n : ℤ := text.length
          CapImg.wrapSearch text n max_lines (max (Int.fdiv n max_lines) 8) none []
    else .error .nameError
  match linesE with
  | .error e => .error e
  | .ok lines =>
    let wrapped := List.intercalate ['\n'] lines
    .ok (wrapped, measure wrapped pil_default_spacing)

/-! ## `CapImg._calc_tail` and `CapImg._draw_balloon` -/

/-- A tail gap segment: the two endpoints on the chosen edge. -/
abbrev Seg := (ℚ × ℚ) × (ℚ × ℚ)

/-- `CapImg._calc_tail(x, y, w, h, tx, ty)` (`addtext.py` lines 373-407).
If the tail point lies in the rectangle inflated by 20 on each side, no
segment and no edge are produced.  Otherwise the point is classified
against the two diagonals of slopes `h/w` and `-h/w` through the corners
(`ZeroDivisionError` when `w = 0`), and the gap segment is centred on the
chosen edge with half-length `w//8` (top/bottom) or `h//8` (left/right). -/
def CapImg.calc_tail (x y w h tx ty : ℚ) : Except PyErr (Option (Seg × ℤ)) :=
  if x - 20 ≤ tx ∧ tx ≤ x + w + 20 ∧ y - 20 ≤ ty ∧ ty ≤ y + h + 20 then
    .ok none
  else if w = 0 then .error .zeroDiv
  else
    let tw : ℚ := (Rat.floor (w / 8) : ℤ)
    let th : ℚ := (Rat.floor (h / 8) : ℤ)
    let m1 : ℚ := h / w
    let m2 : ℚ := -h / w
    let b1 : ℚ := y - m1 * x
    let b2 : ℚ := y + h - m2 * x
    let l1 : ℤ := if ty > m1 * tx + b1 then -1 else 1
    let l2 : ℤ := if ty > m2 * tx + b2 then -1 else 1
    let w2 : ℚ := (Rat.floor (w / 2) : ℤ)
    let h2 : ℚ := (Rat.floor (h / 2) : ℤ)
    if l1 > 0 ∧ l2 > 0 then
      .ok (some (((x + w2 - tw, y), (x + w2 + tw, y)), Side.TOP))
    else if l1 > 0 ∧ l2 < 0 then
      .ok (some (((x + w, y + h2 - th), (x + w, y + h2 + th)), Side.RIGHT))
    else if l1 < 0 ∧ l2 > 0 then
      .ok (some (((x, y + h2 - th), (x, y + h2 + th)), Side.LEFT))
    else
      .ok (some (((x + w2 - tw, y + h), (x + w2 + tw, y + h)), Side.BOTTOM))

/-- The two vertical border lines of the balloon outline (lines 339-347):
the edge carrying the tail gap is split into two segments around the gap. -/
def CapImg.vlines (fill : Color) (x y w h rr_y2 : ℚ) (tail : Option (Seg × ℤ)) :
    List Prim :=
  ([0, w] : List ℚ).flatMap fun xoffs =>
    let split : Option Seg :=
      match tail with
      | some (seg, side) =>
        if (side = Side.LEFT ∧ xoffs = 0) ∨ (side = Side.RIGHT ∧ xoffs = w) then
          some seg
        else none
      | none => none
    match split with
    | some seg =>
      [Prim.line [(x + xoffs, y + rr_y2), (x + xoffs, seg.1.2)] fill 2,
       Prim.line [(x + xoffs, seg.2.2), (x + xoffs, y - rr_y2 + h)] fill 2]
    | none =>
      [Prim.line [(x + xoffs, y + rr_y2), (x + xoffs, y - rr_y2 + h)] fill 2]

/-- The two horizontal border lines (lines 349-357), analogous. -/
def CapImg.hlines (fill : Color) (x y w h rr_x2 : ℚ) (tail : Option (Seg × ℤ)) :
    List Prim :=
  ([0, h] : List ℚ).flatMap fun yoffs =>
    let split : Option Seg :=
      match tail with
      | some (seg, side) =>
        if (side = Side.TOP ∧ yoffs = 0) ∨ (side = Side.BOTTOM ∧ yoffs = h) then
          some seg
        else none
      | none => none
    match split with
    | some seg =>
      [Prim.line [(x + rr_x2, y + yoffs), (seg.1.1, y + yoffs)] fill 2,
       Prim.line [(seg.2.1, y + yoffs), (x - rr_x2 + w, y + yoffs)] fill 2]
    | none =>
      [Prim.line [(x + rr_x2, y + yoffs), (x - rr_x2 + w, y + yoffs)] fill 2]

/-- The four rounded corners (lines 358-371), as arcs or filled pie slices. -/
def CapImg.corners (fill bg : Color) (bfill : Bool) (x y w h rr_x rr_y : ℚ) :
    List Prim :=
  ([(0, 0, 180), (w - rr_x, 0, 270), (w - rr_x, h - rr_y, 0), (0, h - rr_y, 90)] :
      List (ℚ × ℚ × ℤ)).map fun t =>
    let ea : ℤ := (t.2.2 + 90) % 360
    if bfill then
      Prim.pieslice (x + t.1, y + t.2.1, x + t.1 + rr_x, y + t.2.1 + rr_y) t.2.2 ea bg bg
    else
      Prim.arc (x + t.1, y + t.2.1, x + t.1 + rr_x, y + t.2.1 + rr_y) t.2.2 ea fill

/-- `CapImg._draw_balloon(draw, x, y, w, h, tx, ty)` (lines 298-371), as the
ordered list of primitives issued: tail (filled polygon, or two lines),
then border (two filled rectangles, or the two vertical and two horizontal
outline lines with the tail edge split around the gap), then the four
corners.  The only possible failure is the one inherited from
`_calc_tail`. -/
def CapImg.draw_balloon (fill bg : Color) (bfill : Bool) (x y w h tx ty : ℚ) :
    Except PyErr (List Prim) :=
  match CapImg.calc_tail x y w h tx ty with
  | .error e => .error e
  | .ok tail =>
    let tailPrims : List Prim :=
      match tail with
      | some (seg, _) =>
        if bfill then [Prim.polygon [seg.1, seg.2, (tx, ty)] bg bg]
        else [Prim.line [seg.1, (tx, ty)] fill 2, Prim.line [seg.2, (tx, ty)] fill 2]
      | none => []
    let rr : ℚ × ℚ :=
      if w > 50 ∧ h > 50 then (10, 10)
      else if w > 20 ∧ h > 20 then (5, 5)
      else (0, 0)
    let rr_x2 : ℚ := (Rat.floor (rr.1 / 2) : ℤ)
    let rr_y2 : ℚ := (Rat.floor (rr.2 / 2) : ℤ)
    let boxPrims : List Prim :=
      if bfill then
        [Prim.rectangle (x, y + rr_y2, x + w, y + h - rr_y2) bg,
         Prim.rectangle (x + rr_x2, y, x + w - rr_x2, y + h) bg]
      else
        CapImg.vlines fill x y w h rr_y2 tail ++ CapImg.hlines fill x y w h rr_x2 tail
    .ok (tailPrims ++ boxPrims ++ CapImg.corners fill bg bfill x y w h rr.1 rr.2)

/-! ## The `CapImg` object and `finish` -/

/-- The balloon attributes (`self._tailx`, `self._taily`, `self._bfill`),
only assigned when `balloon and Side.is_inner(side)` held at construction. -/
structure BalloonCfg where
  tailx : ℤ
  taily : ℤ
  bfill : Bool
deriving DecidableEq, Repr

/-- The state of a `CapImg` instance (font resolution is an external
capability and enters only through the measurement oracle, so the font
object itself is not part of the state; `self._words` starts as `None` and
is threaded explicitly through `wrap_text`). -/
structure CapImg where
  base_w : ℤ
  base_h : ℤ
  text : List (List Char)
  side : ℤ
  padx : ℤ
  pady : ℤ
  shiftx : ℤ
  shifty : ℤ
  text_fill : Color
  text_bg : Color
  spc : ℤ
  font_spc : ℤ
  balloon : Option BalloonCfg
deriving DecidableEq, Repr

/-- `CapImg.__init__` (lines 76-111): store the style options; the balloon
attributes exist only when the balloon flag was given together with an
inner side (`Side.is_inner`), otherwise `self._balloon = False`.
`font_size` only parameterises the external font handle and is unused in
the embedding. -/
def CapImg.init (base_w base_h : ℤ) (side : ℤ) (space : ℤ) (font_size : ℤ)
    (text_fill text_bg : Color) (padx pady shiftx shifty : ℤ) (line_spacing : ℤ)
    (balloon : Bool) (balloon_tail : ℤ × ℤ) (balloon_fill : Bool) : CapImg :=
  let _ := font_size
  { base_w := base_w, base_h := base_h, text := [], side := side,
    padx := padx, pady := pady, shiftx := shiftx, shifty := shifty,
    text_fill := text_fill, text_bg := text_bg, spc := space,
    font_spc := line_spacing,
    balloon :=
      if balloon && Side.is_inner side then
        some ⟨balloon_tail.1, balloon_tail.2, balloon_fill⟩
      else none }

/-- `CapImg.addtext` (lines 113-119): append a fragment. -/
def CapImg.addtext (c : CapImg) (t : List Char) : CapImg :=
  { c with text := c.text ++ [t] }

/-- The outcome of `CapImg.finish`: the new canvas dimensions, the paste
position of the base image, the resolved text offset, the measured wrapped
text and its dimensions, and the issued draw calls (balloon primitives
followed by the final `multiline_text`). -/
structure FinishResult where
  new_w : ℚ
  new_h : ℚ
  paste_x : ℚ
  paste_y : ℚ
  text_x : ℚ
  text_y : ℚ
  wrapped : List Char
  dim_x : ℤ
  dim_y : ℤ
  balloon_prims : List Prim
  text_prim : Prim
deriving DecidableEq, Repr

/-- `CapImg.finish` (lines 186-296): resolve the side to the text box and
canvas geometry (an unrecognised side raises the `ValueError` of line 261),
wrap the text into the box, grow the canvas when `space == 0` asked for
auto-sizing, paste the base image (the dispatch of lines 272-281; its
`else` raise is unreachable), shift the text offset up for the S/SE/SW
sides, issue the balloon primitives when balloon mode is active, and issue
the final text draw. -/
def CapImg.finish (measure : Measure) (c : CapImg) : Except PyErr FinishResult :=
  let bw : ℚ := c.base_w
  let bh : ℚ := c.base_h
  let px : ℚ := c.padx
  let py : ℚ := c.pady
  let placeE : Except PyErr (ℚ × ℚ × ℚ × ℚ × ℚ × ℚ) :=
    if c.side = Side.TOP ∨ c.side = Side.BOTTOM then
      let text_width := bw - 2 * px
      let text_height : ℚ := if c.spc = 0 then 0 else (c.spc : ℚ) - 2 * py
      let ty : ℚ := if c.side = Side.TOP then py else bh + py
      .ok (text_width, text_height, bw, bh + c.spc, px + c.shiftx, ty + c.shifty)
    else if c.side = Side.LEFT ∨ c.side = Side.RIGHT then
      let text_width : ℚ := if c.spc = 0 then 0 else (c.spc : ℚ) - 2 * px
      let text_height := bh - 2 * py
      let tx : ℚ := if c.side = Side.LEFT then px else bw + px
      .ok (text_width, text_height, bw + c.spc, bh, tx + c.shiftx, py + c.shifty)
    else if c.side = Side.NW ∨ c.side = Side.NE ∨ c.side = Side.SE ∨ c.side = Side.SW then
      let text_width := bw / 2 - 2 * px
      let text_height := bh / 2
      let txy : ℚ × ℚ :=
        if c.side = Side.NE then (bw / 2 + px, py)
        else if c.side = Side.NW then (px, py)
        else if c.side = Side.SE then (px + bw / 2, bh - py - text_height)
        else (px, py + bh / 2)
      .ok (text_width, text_height, bw, bh, txy.1 + c.shiftx, txy.2 + c.shifty)
    else if c.side = Side.N ∨ c.side = Side.E ∨ c.side = Side.W ∨ c.side = Side.S then
      if c.side = Side.N ∨ c.side = Side.S then
        let text_height := bh / 2 - 2 * py
        let text_width := bw - 2 * px
        let ty : ℚ := if c.side = Side.N then py else bh / 2 + py
        .ok (text_width, text_height, bw, bh, px + c.shiftx, ty + c.shifty)
      else
        let text_width := bw / 2 - 2 * px
        let text_height := bh - 2 * py
        let tx : ℚ := if c.side = Side.W then px else px + bw / 2
        .ok (text_width, text_height, bw, bh, tx + c.shiftx, py + c.shifty)
    else .error .badSide
  match placeE with
  | .error e => .error e
  | .ok (text_width, text_height, nw0, nh0, tx0, ty0) =>
    match CapImg.wrap_text measure c.font_spc c.text text_width text_height with
    | .error e => .error e
    | .ok (wrapped, dim) =>
      let nw : ℚ :=
        if c.spc = 0 ∧ (c.side = Side.LEFT ∨ c.side = Side.RIGHT) then
          nw0 + dim.1 + 2 * px
        else nw0
      let nh : ℚ :=
        if c.spc = 0 ∧ (c.side = Side.TOP ∨ c.side = Side.BOTTOM) then
          nh0 + dim.2 + 2 * py
        else nh0
      let pasteE : Except PyErr (ℚ × ℚ) :=
        if c.side = Side.TOP then .ok (0, nh - bh)
        else if c.side = Side.BOTTOM ∨ c.side = Side.RIGHT then .ok (0, 0)
        else if c.side = Side.LEFT then .ok (nw - bw, 0)
        else if c.side = Side.NE ∨ c.side = Side.NW ∨ c.side = Side.N ∨
            c.side = Side.E ∨ c.side = Side.W ∨ c.side = Side.S ∨
            c.side = Side.SE ∨ c.side = Side.SW then .ok (0, 0)
        else .error .badSide2
      match pasteE with
      | .error e => .error e
      | .ok paste =>
        let ty1 : ℚ :=
          if c.side = Side.S ∨ c.side = Side.SE ∨ c.side = Side.SW then
            ty0 + (bh / 2 - dim.2 - 2 * py)
          else ty0
        let balloonE : Except PyErr (List Prim) :=
          match c.balloon with
          | some b =>
            CapImg.draw_balloon c.text_fill c.text_bg b.bfill
              (tx0 - 5) (ty1 - 5) ((dim.1 : ℚ) + 5 * 2) ((dim.2 : ℚ) + 5 * 2)
              (b.tailx : ℚ) (b.taily : ℚ)
          | none => .ok []
        match balloonE with
        | .error e => .error e
        | .ok bprims =>
          .ok { new_w := nw, new_h := nh, paste_x := paste.1, paste_y := paste.2,
                text_x := tx0, text_y := ty1, wrapped := wrapped,
                dim_x := dim.1, dim_y := dim.2, balloon_prims := bprims,
                text_prim := Prim.multiline_text (tx0, ty1) wrapped c.text_fill c.font_spc }

/-! ## Concrete measurement oracles used in witnesses and counterexamples -/

/-- A simple oracle: 8 pixels per character, every string one 16-pixel line.
(The calibration string then measures 320×16, giving `fx = 320/37`.) -/
def measure8x16 : Measure := fun s _ => (8 * (s.length : ℤ), 16)

/-- An oracle whose reported height is the requested line spacing, exposing
which `spacing` argument a measurement call passed. -/
def measureSp : Measure := fun s spc => (8 * (s.length : ℤ), spc)

/-- Flattened form of the `_broken_words` scan: the nested line/word loops
visit the concatenation of the per-line token lists, so the scan is
equivalent to this single walk (proved in `bwLines_eq_bwFlat`). -/
def CapImg.bwFlat (ws : List (List Char)) : ℕ → List (List Char) → Option Bool
  | _, [] => some false
  | w, t :: rest =>
    if h : w < ws.length then
      if ws.get ⟨w, h⟩ ≠ t then some true
      else if w + 1 = ws.length then some false
      else CapImg.bwFlat ws (w + 1) rest
    else none

/-- Position-by-position divergence scan between two token sequences:
`true` when the sequences differ at some index shared by both (the walk
stops when either sequence runs out). -/
def pwB : List (List Char) → List (List Char) → Bool
  | a :: as, b :: bs => if a ≠ b then true else pwB as bs
  | _, _ => false

/-! ## Helper lemmas -/

/-- Folding `addtext` over a fragment list just appends the fragments. -/
theorem addtext_foldl (c : CapImg) (ts : List (List Char)) :
    ts.foldl CapImg.addtext c = { c with text := c.text ++ ts } := by
  induction ts generalizing c with
  | nil => simp
  | cons t ts ih => simp [List.foldl_cons, ih, CapImg.addtext]

/-- The widening search loop of `_wrap_text` can only fail with the
`IndexError` of `_broken_words`, never with the layout `ValueError`. -/
theorem wrapSearch_error_indexError (text : List Char) (n maxl ww : ℤ)
    (cache : Option (List (List Char))) (lines : List (List Char)) (e : PyErr)
    (he : CapImg.wrapSearch text n maxl ww cache lines = .error e) :
    e = .indexError := by
  rw [CapImg.wrapSearch] at he
  split at he
  next hlt =>
    simp only at he
    split at he
    next hlen =>
      split at he
      next => simp_all
      next b cache2 heq =>
        split at he
        · exact wrapSearch_error_indexError text n maxl (ww + 1) (some cache2)
            (CapImg.wrap text (ww : ℚ)) e he
        · cases he
    next hlen =>
      exact wrapSearch_error_indexError text n maxl (ww + 1) cache
        (CapImg.wrap text (ww : ℚ)) e he
  next hlt => cases he
termination_by (n - ww).toNat
decreasing_by all_goals omega

/-- In unknown-width mode, `_wrap_text` raises the layout `ValueError` iff
the height is strictly below one line's measured height `fy`; the other
conditions can only produce a `ZeroDivisionError` or `IndexError`. -/
theorem wrap_text_layout_iff (measure : Measure) (fs : ℤ) (texts : List (List Char)) (h : ℚ) :
    CapImg.wrap_text measure fs texts 0 h = .error .layoutError
      ↔ h < ((measure calibStr fs).2 : ℚ) := by
  constructor
  · intro he
    by_contra hge
    simp only [CapImg.wrap_text] at he
    rw [if_neg (lt_irrefl 0)] at he
    rw [if_true, if_neg hge] at he
    split at he
    next e heq =>
      obtain rfl := Except.error.inj he
      split at heq
      · simp at heq
      · split at heq
        · simp at heq
        · have hidx := wrapSearch_error_indexError _ _ _ _ _ _ _ heq
          simp at hidx
    next => simp at he
  · intro hlt
    simp only [CapImg.wrap_text]
    rw [if_neg (lt_irrefl 0)]
    rw [if_true, if_pos hlt]

/-- **C1** (code-bug evidence).  The claim asserts that every non-empty
text wraps to at least one line in unknown-width mode.  Failing input:
text `"hi"` (non-empty after joining and stripping), `w = 0`, `h = 48`
under the `measure8x16` oracle (one line is 16 px high, so three lines
fit): `_wrap_text` returns *zero* lines (the empty wrapped string),
because the initial wrap width `max(n // max_lines, 8) = 8` already
reaches the text length `n = 2`, so the `while wrap_width < n` loop never
executes and the initial `lines = []` survives to the result. -/
theorem C1_short_text_yields_no_lines :
    CapImg.wrap_text measure8x16 4 ["hi".data] 0 48 = .ok ([], (0, 16))
    ∧ pyStrip (List.intercalate [' '] ["hi".data]) ≠ [] := by
  with_unfolding_all decide

/-- **C4**.  First conjunct (holds): in unknown-width mode the layout
`ValueError` is raised if and only if the target height is strictly less
than one line's measured height.  Remaining conjuncts (code-bug evidence
against the claim's second half): with height exactly one line
(`h = fy = 16`) and the text `"hi"`, which fits on a single wrapped line
even at the initial wrap width 8, `_wrap_text` succeeds but produces zero
lines instead of exactly one — `max_lines = 1` makes the initial wrap
width `max(n // 1, 8) ≥ n`, so the widening loop never runs and the
empty `lines` list is returned. -/
theorem C4_layout_error_iff_and_exact_height_bug :
    (∀ (measure : Measure) (fs : ℤ) (texts : List (List Char)) (h : ℚ),
      CapImg.wrap_text measure fs texts 0 h = .error .layoutError
        ↔ h < ((measure calibStr fs).2 : ℚ))
    ∧ CapImg.wrap_text measure8x16 4 ["hi".data] 0 16 = .ok ([], (0, 16))
    ∧ CapImg.wrap "hi".data 8 = ["hi".data]
    ∧ (measure8x16 calibStr 4).2 = 16 := by
  refine ⟨wrap_text_layout_iff, ?_, ?_, ?_⟩
  · with_unfolding_all decide
  · with_unfolding_all decide
  · with_unfolding_all decide

/-- **C2** (counterexample).  The claim asserts balloon geometry never
fails, including for degenerate zero-size rectangles.  Refutation at a
concrete input: rectangle `(0, 0, 0, 100)` (zero width) with tail point
`(100, 50)` outside the inflated box makes `_calc_tail` evaluate
`h / w` with `w == 0`, so `_draw_balloon` dies with a
`ZeroDivisionError` instead of producing a plan. -/
theorem C2_zero_width_balloon_crashes :
    CapImg.draw_balloon (0, 0, 0, 255) (255, 255, 255, 255) false 0 0 0 100 100 50
      = .error .zeroDiv := by
  with_unfolding_all decide

/-- **C2** (amended).  Balloon geometry produces a complete plan for every
rectangle and tail point *except* when the rectangle has zero width and
the tail lies outside the inflated box (the division-by-zero above): if
`w ≠ 0`, or the tail point falls inside the box inflated by 20 on each
side (which covers the tail-coincides-with-rectangle and the fully
degenerate `w = h = 0` cases), `_draw_balloon` succeeds. -/
theorem C2_amended_balloon_total_unless_zero_width
    (fill bg : Color) (bfill : Bool) (x y w h tx ty : ℚ)
    (hcase : w ≠ 0 ∨ (x - 20 ≤ tx ∧ tx ≤ x + w + 20 ∧ y - 20 ≤ ty ∧ ty ≤ y + h + 20)) :
    ∃ prims, CapImg.draw_balloon fill bg bfill x y w h tx ty = .ok prims := by
  have htail : ∃ t, CapImg.calc_tail x y w h tx ty = .ok t := by
    unfold CapImg.calc_tail
    by_cases hin : x - 20 ≤ tx ∧ tx ≤ x + w + 20 ∧ y - 20 ≤ ty ∧ ty ≤ y + h + 20
    · exact ⟨none, if_pos hin⟩
    · have hw : w ≠ 0 := hcase.resolve_right hin
      rw [if_neg hin, if_neg hw]
      dsimp only
      split_ifs <;> exact ⟨_, rfl⟩
  obtain ⟨t, ht⟩ := htail
  unfold CapImg.draw_balloon
  rw [ht]
  exact ⟨_, rfl⟩

/-- Witness for `C2_amended_balloon_total_unless_zero_width`: the fully
degenerate zero-size rectangle `(0,0,0,0)` with the tail point on the
rectangle itself. -/
theorem C2_amended_balloon_total_unless_zero_width_witness :
    ((0:ℚ) ≠ 0 ∨ ((0:ℚ) - 20 ≤ 0 ∧ (0:ℚ) ≤ 0 + 0 + 20 ∧ (0:ℚ) - 20 ≤ 0 ∧ (0:ℚ) ≤ 0 + 0 + 20))
    ∧ ∃ prims, CapImg.draw_balloon (0, 0, 0, 255) (255, 255, 255, 255) false 0 0 0 0 0 0
        = .ok prims :=
  ⟨Or.inr (by with_unfolding_all decide),
   C2_amended_balloon_total_unless_zero_width (0, 0, 0, 255) (255, 255, 255, 255) false
     0 0 0 0 0 0 (Or.inr (by with_unfolding_all decide))⟩

/-- `finish` on a configuration whose side is not one of the twelve `Side`
constants fails with the `ValueError` of line 261. -/
theorem finish_badSide (measure : Measure) (c : CapImg)
    (hc : ¬ (1 ≤ c.side ∧ c.side ≤ 12)) :
    CapImg.finish measure c = .error .badSide := by
  simp only [CapImg.finish]
  rw [if_neg, if_neg, if_neg, if_neg] <;>
    first
      | rfl
      | (simp only [Side.TOP, Side.BOTTOM, Side.LEFT, Side.RIGHT, Side.NW, Side.NE,
            Side.SE, Side.SW, Side.N, Side.E, Side.W, Side.S]
         omega)

/-- **C9** (counterexample).  The claim asserts an unrecognised Region is
rejected at construction or option-resolution time, not deferred to
`finish`.  Refutation: `CapImg.__init__` performs no side validation, so
construction with the unrecognised side value 13 succeeds (the value is
stored as-is), and the configuration `ValueError` is raised only when
`finish` runs its placement dispatch. -/
theorem C9_side_error_deferred_to_finish :
    (CapImg.init 200 100 13 0 16 (0, 0, 0, 255) (255, 255, 255, 255)
        5 5 0 0 4 false (0, 0) false).side = 13
    ∧ CapImg.finish measure8x16
        ((CapImg.init 200 100 13 0 16 (0, 0, 0, 255) (255, 255, 255, 255)
            5 5 0 0 4 false (0, 0) false).addtext "hi".data)
      = .error .badSide := by
  constructor
  · rfl
  · exact finish_badSide _ _ (by decide)

/-- **C9** (amended).  For every side value outside the twelve recognised
`Side` constants, captioning does fail with the configuration
`ValueError` rather than silently defaulting — but the error is raised by
the placement dispatch inside `finish()`, construction having stored the
unvalidated side. -/
theorem C9_amended_unrecognised_side_fails_in_finish (side : ℤ)
    (hside : ¬ (1 ≤ side ∧ side ≤ 12)) (measure : Measure)
    (bw bh spc fsz px py sx sy ls : ℤ) (f g : Color) (b : Bool) (bt : ℤ × ℤ)
    (bf : Bool) (texts : List (List Char)) :
    CapImg.finish measure
      (texts.foldl CapImg.addtext
        (CapImg.init bw bh side spc fsz f g px py sx sy ls b bt bf))
      = .error .badSide := by
  rw [addtext_foldl]
  exact finish_badSide measure _ hside

/-- Witness for `C9_amended_unrecognised_side_fails_in_finish` at the
concrete unrecognised side value 0. -/
theorem C9_amended_unrecognised_side_fails_in_finish_witness :
    (¬ ((1:ℤ) ≤ 0 ∧ (0:ℤ) ≤ 12))
    ∧ CapImg.finish measure8x16
        (["hi".data].foldl CapImg.addtext
          (CapImg.init 200 100 0 0 16 (0, 0, 0, 255) (255, 255, 255, 255)
            5 5 0 0 4 false (0, 0) false))
      = .error .badSide :=
  ⟨by decide,
   C9_amended_unrecognised_side_fails_in_finish 0 (by decide) measure8x16
     200 100 0 16 5 5 0 0 4 (0, 0, 0, 255) (255, 255, 255, 255) false (0, 0)
     false ["hi".data]⟩

/-- A configuration without balloon attributes issues no balloon
primitives in `finish`. -/
theorem finish_no_balloon_prims (measure : Measure) (c : CapImg)
    (hb : c.balloon = none) (r : FinishResult)
    (hok : CapImg.finish measure c = .ok r) : r.balloon_prims = [] := by
  simp only [CapImg.finish] at hok
  rw [hb] at hok
  split at hok
  · cases hok
  · split at hok
    · cases hok
    · split at hok
      · cases hok
      · obtain rfl := Except.ok.inj hok
        rfl

/-- **C10** (confirmed).  Requesting balloon mode together with an outer
side (TOP, RIGHT, BOTTOM, LEFT) is silently ignored: construction
succeeds and produces the very same configuration as with the balloon
flag off (the balloon attributes are dropped because
`Side.is_inner` is false), `finish` therefore produces the identical
output, and no balloon primitives are ever issued. -/
theorem C10_balloon_silently_ignored_on_outer (side : ℤ)
    (hside : side = Side.TOP ∨ side = Side.RIGHT ∨ side = Side.BOTTOM ∨ side = Side.LEFT)
    (bw bh spc fsz px py sx sy ls : ℤ) (f g : Color) (bt : ℤ × ℤ) (bf : Bool) :
    CapImg.init bw bh side spc fsz f g px py sx sy ls true bt bf
      = CapImg.init bw bh side spc fsz f g px py sx sy ls false bt bf
    ∧ (CapImg.init bw bh side spc fsz f g px py sx sy ls true bt bf).balloon = none
    ∧ (∀ (measure : Measure) (texts : List (List Char)),
        CapImg.finish measure (texts.foldl CapImg.addtext
          (CapImg.init bw bh side spc fsz f g px py sx sy ls true bt bf))
        = CapImg.finish measure (texts.foldl CapImg.addtext
          (CapImg.init bw bh side spc fsz f g px py sx sy ls false bt bf)))
    ∧ ∀ (measure : Measure) (texts : List (List Char)) (r : FinishResult),
        CapImg.finish measure (texts.foldl CapImg.addtext
          (CapImg.init bw bh side spc fsz f g px py sx sy ls true bt bf)) = .ok r →
        r.balloon_prims = [] := by
  have hinner : Side.is_inner side = false := by
    rcases hside with rfl | rfl | rfl | rfl <;> decide
  have heq : CapImg.init bw bh side spc fsz f g px py sx sy ls true bt bf
      = CapImg.init bw bh side spc fsz f g px py sx sy ls false bt bf := by
    simp [CapImg.init, hinner]
  refine ⟨heq, ?_, fun measure texts => by rw [heq], fun measure texts r hok => ?_⟩
  · simp [CapImg.init, hinner]
  · refine finish_no_balloon_prims measure _ ?_ r hok
    rw [addtext_foldl]
    simp [CapImg.init, hinner]

/-- Witness for `C10_balloon_silently_ignored_on_outer` at side TOP. -/
theorem C10_balloon_silently_ignored_on_outer_witness :
    (CapImg.init 200 100 1 0 16 (0, 0, 0, 255) (255, 255, 255, 255)
        5 5 0 0 4 true (50, 50) false).balloon = none :=
  (C10_balloon_silently_ignored_on_outer 1 (Or.inl rfl)
    200 100 0 16 5 5 0 0 4 (0, 0, 0, 255) (255, 255, 255, 255) (50, 50) false).2.1

/-- A text without the paragraph marker splits into the single segment
consisting of the whole text. -/
theorem splitMarker_no_marker (text : List Char) (hm : hasMarker text = false) :
    splitMarker text = [text] := by
  induction text using splitMarker.induct with
  | case1 => rfl
  | case2 rest ih => rw [hasMarker.eq_2] at hm; cases hm
  | case3 c rest hexc hsp ih =>
    rw [hasMarker.eq_3 c rest hexc] at hm
    rw [ih hm] at hsp
    cases hsp
  | case4 c rest hexc l ls hsp ih =>
    rw [hasMarker.eq_3 c rest hexc] at hm
    rw [ih hm] at hsp
    injection hsp with h1 h2
    subst h1
    subst h2
    rw [splitMarker.eq_3 c rest hexc, ih hm]

/-- **C5** (counterexample).  The claim prescribes, for *every* text, the
split-wrap-concatenate pipeline in which each empty segment contributes a
blank line.  For the empty text the claim's prescription yields one blank
line (the single split segment is empty), but `_wrap` takes the no-marker
shortcut and returns no lines at all. -/
theorem C5_empty_text_no_blank_line :
    CapImg.wrap [] 10 = []
    ∧ ((splitMarker []).flatMap fun p => if p = [] then [[]] else textwrap p 10) = [[]]
    ∧ ([] : List (List Char)) ≠ [[]] := by
  with_unfolding_all decide

/-- **C5** (amended).  For every wrap width and every text that contains
the paragraph marker or is non-empty, `_wrap` equals the prescribed
pipeline: split on `//`, word-wrap each non-empty segment independently,
emit one literal blank line per empty segment, and concatenate in order.
Consequently `"A//B"` at the generous width 80 wraps to exactly the lines
`["A", "B"]`: the two marker-separated groups stay separate and no line
mixes tokens from both sides. -/
theorem C5_amended_paragraph_wrap :
    (∀ (text : List Char) (width : ℚ), hasMarker text = true ∨ text ≠ [] →
      CapImg.wrap text width
        = (splitMarker text).flatMap fun p => if p = [] then [[]] else textwrap p width)
    ∧ CapImg.wrap "A//B".data 80 = [['A'], ['B']]
    ∧ hasMarker "A//B".data = true := by
  refine ⟨?_, by with_unfolding_all decide, by decide⟩
  intro text width hcase
  unfold CapImg.wrap
  by_cases hm : hasMarker text
  · rw [if_neg (by simp [hm])]
  · rw [if_pos (by simp [hm])]
    have hne : text ≠ [] := hcase.resolve_left hm
    rw [Bool.not_eq_true] at hm
    rw [splitMarker_no_marker text hm]
    simp [hne]

/-- Witness for the universally quantified part of
`C5_amended_paragraph_wrap`, instantiated at `"A//B"` and width 80. -/
theorem C5_amended_paragraph_wrap_witness :
    CapImg.wrap "A//B".data 80
      = (splitMarker "A//B".data).flatMap fun p => if p = [] then [[]] else textwrap p 80 :=
  C5_amended_paragraph_wrap.1 "A//B".data 80 (Or.inl (by decide))

/-- **C7** (counterexample).  The claim asserts the returned dimensions
re-measure the joined wrapped string with the *configured* line-spacing.
Refutation: the re-measurement call on line 154 omits the `spacing`
argument, so PIL's default spacing 4 is used.  With the spacing-sensitive
oracle `measureSp`, configured line spacing 10 and the one-line text
`"hi"` in known-width mode, the code returns height 4 (the default
spacing), while the claim prescribes `measureSp wrapped 10 = (16, 10)`. -/
theorem C7_remeasure_ignores_configured_spacing :
    CapImg.wrap_text measureSp 10 ["hi".data] 100 0 = .ok ("hi".data, (16, 4))
    ∧ measureSp "hi".data 10 = (16, 10)
    ∧ ((16, 4) : ℤ × ℤ) ≠ (16, 10) := by
  with_unfolding_all decide

/-- **C7** (amended).  Whenever `_wrap_text` succeeds, the returned
dimensions are the measurement oracle's result on the joined,
newline-delimited wrapped string measured as a whole — but with the
oracle's *default* line-spacing value (4), the `spacing` argument being
omitted at the re-measurement call site, not with the configured
line-spacing. -/
theorem C7_amended_dims_remeasure_joined_default_spacing
    (measure : Measure) (fs : ℤ) (texts : List (List Char)) (w h : ℚ)
    (r : List Char × (ℤ × ℤ))
    (hok : CapImg.wrap_text measure fs texts w h = .ok r) :
    r.2 = measure r.1 pil_default_spacing
    ∧ ∃ lines, r.1 = List.intercalate ['\n'] lines := by
  simp only [CapImg.wrap_text] at hok
  split at hok
  · cases hok
  · obtain rfl := Except.ok.inj hok
    exact ⟨rfl, _, rfl⟩

/-- Witness for `C7_amended_dims_remeasure_joined_default_spacing` at a
concrete known-width call. -/
theorem C7_amended_dims_remeasure_joined_default_spacing_witness :
    CapImg.wrap_text measureSp 4 ["hi".data] 100 0 = .ok ("hi".data, (16, 4))
    ∧ (("hi".data, ((16 : ℤ), (4 : ℤ))).2 = measureSp ("hi".data, ((16 : ℤ), (4 : ℤ))).1 pil_default_spacing
        ∧ ∃ lines, (("hi".data, ((16 : ℤ), (4 : ℤ))).1 : List Char) = List.intercalate ['\n'] lines) :=
  ⟨by with_unfolding_all decide,
   C7_amended_dims_remeasure_joined_default_spacing measureSp 4 ["hi".data] 100 0
     ("hi".data, (16, 4)) (by with_unfolding_all decide)⟩

/-- `finish` for a TOP-side configuration with `space == 0` and no balloon:
the canvas keeps the base width, the height grows by the wrapped text's
measured height plus twice the vertical padding, the base image is pasted
at `y = new height − base height`, and the text box offset is the padding
plus the shift. -/
theorem finish_top_spc0 (measure : Measure) (c : CapImg)
    (hside : c.side = Side.TOP) (hspc : c.spc = 0) (hballoon : c.balloon = none)
    (wrapped : List Char) (dim : ℤ × ℤ)
    (hwrap : CapImg.wrap_text measure c.font_spc c.text
        ((c.base_w : ℚ) - 2 * (c.padx : ℚ)) (0 : ℚ) = .ok (wrapped, dim)) :
    CapImg.finish measure c = .ok
      { new_w := (c.base_w : ℚ),
        new_h := (c.base_h : ℚ) + (c.spc : ℚ) + (dim.2 : ℚ) + 2 * (c.pady : ℚ),
        paste_x := 0,
        paste_y := ((c.base_h : ℚ) + (c.spc : ℚ) + (dim.2 : ℚ) + 2 * (c.pady : ℚ)) - (c.base_h : ℚ),
        text_x := (c.padx : ℚ) + (c.shiftx : ℚ),
        text_y := (c.pady : ℚ) + (c.shifty : ℚ),
        wrapped := wrapped, dim_x := dim.1, dim_y := dim.2,
        balloon_prims := [],
        text_prim := Prim.multiline_text ((c.padx : ℚ) + (c.shiftx : ℚ), (c.pady : ℚ) + (c.shifty : ℚ))
          wrapped c.text_fill c.font_spc } := by
  simp only [CapImg.finish, hside, hspc, hballoon, Side.TOP, Side.BOTTOM, Side.LEFT,
    Side.RIGHT, Side.NW, Side.NE, Side.SE, Side.SW, Side.N, Side.E, Side.W, Side.S]
  norm_num
  rw [hwrap]

/-- **C8** (confirmed).  For a 200×100 base image, side TOP, padding
`(5, 5)`, `space = 0`, zero shift and any measurement oracle with a
non-zero calibration width (otherwise the wrap itself dies on a
division by zero), `finish` computes text box x-offset 5, final canvas
height `100 + wrapped-text-height + 10`, and pastes the base image at
`y = final height − 100`. -/
theorem C8_top_placement (measure : Measure) (ls : ℤ)
    (hfx : (measure calibStr ls).1 ≠ 0) (texts : List (List Char)) (f g : Color) :
    ∃ r, CapImg.finish measure (texts.foldl CapImg.addtext
        (CapImg.init 200 100 Side.TOP 0 16 f g 5 5 0 0 ls false (0, 0) false)) = .ok r
      ∧ r.text_x = 5
      ∧ r.new_h = 100 + (r.dim_y : ℚ) + 10
      ∧ r.paste_y = r.new_h - 100 := by
  rw [addtext_foldl]
  have hfx2 : ((measure calibStr ls).1 : ℚ) / 37 ≠ 0 := by
    simp [div_eq_zero_iff, hfx]
  have h190 : (0 : ℚ) < ((200 : ℤ) : ℚ) - 2 * ((5 : ℤ) : ℚ) := by norm_num
  have hwrapE : ∃ p, CapImg.wrap_text measure ls ([] ++ texts)
      (((200 : ℤ) : ℚ) - 2 * ((5 : ℤ) : ℚ)) 0 = .ok p := by
    simp only [CapImg.wrap_text]
    rw [if_pos h190, if_neg hfx2]
    exact ⟨_, rfl⟩
  obtain ⟨⟨wrapped, dim⟩, hw⟩ := hwrapE
  refine ⟨_, finish_top_spc0 measure _ rfl rfl rfl wrapped dim hw, ?_, ?_, ?_⟩
  · norm_num [CapImg.init]
  · norm_num [CapImg.init]
  · norm_num [CapImg.init]

/-- Witness for `C8_top_placement` under the concrete `measure8x16` oracle. -/
theorem C8_top_placement_witness :
    (measure8x16 calibStr 4).1 ≠ 0
    ∧ ∃ r, CapImg.finish measure8x16 (["hi".data].foldl CapImg.addtext
        (CapImg.init 200 100 Side.TOP 0 16 (0, 0, 0, 255) (255, 255, 255, 255)
          5 5 0 0 4 false (0, 0) false)) = .ok r
      ∧ r.text_x = 5
      ∧ r.new_h = 100 + (r.dim_y : ℚ) + 10
      ∧ r.paste_y = r.new_h - 100 :=
  ⟨by decide,
   C8_top_placement measure8x16 4 (by decide) ["hi".data]
     (0, 0, 0, 255) (255, 255, 255, 255)⟩

/-- **C3** (confirmed).  The tail edge selection contract of
`_calc_tail` for rectangles of positive width: a tail point inside the
rectangle inflated by 20 px on each side yields no segment and no edge;
otherwise half-plane tests against the two diagonals through the
rectangle's corners (slopes `h/w` and `-h/w`, through `(x, y)` and
`(x, y+h)` respectively) select exactly one of TOP, RIGHT, LEFT, BOTTOM
together with a gap segment; in particular for rectangle `(0,0,100,100)`
the tail `(50,200)` selects BOTTOM, `(-200,50)` selects LEFT, and
`(50,50)` (inside the inflated box) yields no segment and no edge. -/
theorem C3_calc_tail_edge_selection (x y w h tx ty : ℚ) (hw : 0 < w) :
    ((x - 20 ≤ tx ∧ tx ≤ x + w + 20 ∧ y - 20 ≤ ty ∧ ty ≤ y + h + 20) →
        CapImg.calc_tail x y w h tx ty = .ok none)
    ∧ (¬ (x - 20 ≤ tx ∧ tx ≤ x + w + 20 ∧ y - 20 ≤ ty ∧ ty ≤ y + h + 20) →
        ∃ seg, CapImg.calc_tail x y w h tx ty
          = .ok (some (seg,
              if ty ≤ h / w * (tx - x) + y then
                if ty ≤ -(h / w) * (tx - x) + (y + h) then Side.TOP else Side.RIGHT
              else
                if ty ≤ -(h / w) * (tx - x) + (y + h) then Side.LEFT else Side.BOTTOM)))
    ∧ (CapImg.calc_tail 0 0 100 100 50 200).map (Option.map Prod.snd) = .ok (some Side.BOTTOM)
    ∧ (CapImg.calc_tail 0 0 100 100 (-200) 50).map (Option.map Prod.snd) = .ok (some Side.LEFT)
    ∧ CapImg.calc_tail 0 0 100 100 50 50 = .ok none := by
  refine ⟨?_, ?_, by with_unfolding_all decide, by with_unfolding_all decide,
    by with_unfolding_all decide⟩
  · intro hin
    unfold CapImg.calc_tail
    rw [if_pos hin]
  · intro hin
    unfold CapImg.calc_tail
    rw [if_neg hin, if_neg (ne_of_gt hw)]
    dsimp only
    have e1 : h / w * tx + (y - h / w * x) = h / w * (tx - x) + y := by ring
    have e2 : -h / w * tx + (y + h - -h / w * x) = -(h / w) * (tx - x) + (y + h) := by ring
    rw [e1, e2]
    by_cases d1 : ty ≤ h / w * (tx - x) + y <;>
      by_cases d2 : ty ≤ -(h / w) * (tx - x) + (y + h)
    · rw [if_neg (not_lt.mpr d1), if_neg (not_lt.mpr d2),
        if_pos (show (1:ℤ) > 0 ∧ (1:ℤ) > 0 from by norm_num),
        if_pos d1, if_pos d2]
      exact ⟨_, rfl⟩
    · rw [if_neg (not_lt.mpr d1), if_pos (not_le.mp d2),
        if_neg (show ¬ ((1:ℤ) > 0 ∧ (-1:ℤ) > 0) from by norm_num),
        if_pos (show (1:ℤ) > 0 ∧ (-1:ℤ) < 0 from by norm_num),
        if_pos d1, if_neg d2]
      exact ⟨_, rfl⟩
    · rw [if_pos (not_le.mp d1), if_neg (not_lt.mpr d2),
        if_neg (show ¬ ((-1:ℤ) > 0 ∧ (1:ℤ) > 0) from by norm_num),
        if_neg (show ¬ ((-1:ℤ) > 0 ∧ (1:ℤ) < 0) from by norm_num),
        if_pos (show (-1:ℤ) < 0 ∧ (1:ℤ) > 0 from by norm_num),
        if_neg d1, if_pos d2]
      exact ⟨_, rfl⟩
    · rw [if_pos (not_le.mp d1), if_pos (not_le.mp d2),
        if_neg (show ¬ ((-1:ℤ) > 0 ∧ (-1:ℤ) > 0) from by norm_num),
        if_neg (show ¬ ((-1:ℤ) > 0 ∧ (-1:ℤ) < 0) from by norm_num),
        if_neg (show ¬ ((-1:ℤ) < 0 ∧ (-1:ℤ) > 0) from by norm_num),
        if_neg d1, if_neg d2]
      exact ⟨_, rfl⟩

/-- Witness for `C3_calc_tail_edge_selection` at the concrete rectangle
`(0,0,100,100)`. -/
theorem C3_calc_tail_edge_selection_witness :
    (0 : ℚ) < 100
    ∧ CapImg.calc_tail 0 0 100 100 50 50 = .ok none :=
  ⟨by decide, (C3_calc_tail_edge_selection 0 0 100 100 50 50 (by decide)).2.2.2.2⟩

theorem bwWords_flat (ws : List (List Char)) (toks : List (List Char)) :
    ∀ (w : ℕ) (k : List (List Char)),
      CapImg.bwFlat ws w (toks ++ k)
        = match CapImg.bwWords ws w toks with
          | .ans b => some b
          | .err => none
          | .cont w2 => CapImg.bwFlat ws w2 k := by
  induction toks with
  | nil => intro w k; rfl
  | cons t ts ih =>
    intro w k
    rw [List.cons_append, CapImg.bwFlat, CapImg.bwWords]
    by_cases hlt : w < ws.length
    · rw [dif_pos hlt, dif_pos hlt]
      by_cases hne : ws.get ⟨w, hlt⟩ ≠ t
      · rw [if_pos hne, if_pos hne]
      · rw [if_neg hne, if_neg hne]
        by_cases hend : w + 1 = ws.length
        · rw [if_pos hend, if_pos hend]
        · rw [if_neg hend, if_neg hend]
          exact ih (w + 1) k
    · rw [dif_neg hlt, dif_neg hlt]

theorem bwLines_eq_bwFlat (ws : List (List Char)) (lines : List (List Char)) :
    ∀ (w : ℕ),
      CapImg.bwLines ws w lines = CapImg.bwFlat ws w (lines.flatMap findWords) := by
  induction lines with
  | nil => intro w; rfl
  | cons line rest ih =>
    intro w
    rw [CapImg.bwLines, List.flatMap_cons, bwWords_flat]
    cases CapImg.bwWords ws w (findWords line) with
    | ans b => rfl
    | cont w2 => exact ih w2
    | err => rfl

theorem bwFlat_eq_pwB (ws : List (List Char)) (toks : List (List Char)) :
    ∀ (w : ℕ), w < ws.length →
      CapImg.bwFlat ws w toks = some (pwB (ws.drop w) toks) := by
  induction toks with
  | nil =>
    intro w hw
    rw [List.drop_eq_getElem_cons hw]
    rfl
  | cons t ts ih =>
    intro w hw
    rw [List.drop_eq_getElem_cons hw, CapImg.bwFlat, dif_pos hw, pwB]
    rw [show ws.get ⟨w, hw⟩ = ws[w] from rfl]
    by_cases hne : ws[w] ≠ t
    · rw [if_pos hne, if_pos hne]
    · rw [if_neg hne, if_neg hne]
      by_cases hend : w + 1 = ws.length
      · rw [if_pos hend]
        rw [show ws.drop (w + 1) = [] from by
          rw [List.drop_eq_nil_iff]
          omega]
        rfl
      · rw [if_neg hend]
        exact ih (w + 1) (by omega)

theorem pwB_iff (A : List (List Char)) :
    ∀ (B : List (List Char)),
      pwB A B = true
        ↔ ∃ i, i < A.length ∧ i < B.length ∧ A.get? i ≠ B.get? i := by
  induction A with
  | nil =>
    intro B
    simp [pwB.eq_def]
  | cons a as ih =>
    intro B
    cases B with
    | nil => simp [pwB]
    | cons b bs =>
      rw [pwB]
      by_cases hab : a ≠ b
      · simp only [if_pos hab, true_iff]
        exact ⟨0, by simp, by simp, by simpa using hab⟩
      · rw [if_neg hab]
        push_neg at hab
        subst hab
        rw [ih bs]
        constructor
        · rintro ⟨i, h1, h2, h3⟩
          exact ⟨i + 1, by simpa using h1, by simpa using h2, by simpa using h3⟩
        · rintro ⟨i, h1, h2, h3⟩
          cases i with
          | zero => simp at h3
          | succ j =>
            exact ⟨j, by simpa using h1, by simpa using h2, by simpa using h3⟩

/-- A first call of `_broken_words` (empty memo) computes and caches the
original text's token list and reports the position-by-position
divergence scan against the concatenated line tokens. -/
theorem broken_words_none (text : List Char) (lines : List (List Char))
    (hT : findWords text ≠ []) :
    CapImg.broken_words none text lines
      = some (pwB (findWords text) (lines.flatMap findWords), findWords text) := by
  unfold CapImg.broken_words
  dsimp only
  rw [bwLines_eq_bwFlat, bwFlat_eq_pwB _ _ 0 (List.length_pos.mpr hT), List.drop_zero]
  rfl

/-- **C6** (confirmed).  `_broken_words` compares the alphanumeric word
tokens of the original text against the word tokens of the candidate
lines position by position and reports broken exactly when the two
sequences differ at some shared index; `"hello world"` against
`["hel-", "lo world"]` is flagged broken while `["hello", "world"]` is
not; and the original text's token list is computed once (cached on the
first call) and reused unchanged by later calls within the same wrap
(a later call with a non-empty cache is independent of the text argument
and returns the cache untouched). -/
theorem C6_broken_words_detector (text : List Char) (lines : List (List Char))
    (hT : findWords text ≠ []) :
    (∃ b, CapImg.broken_words none text lines = some (b, findWords text)
       ∧ (b = true ↔ ∃ i, i < (findWords text).length
             ∧ i < (lines.flatMap findWords).length
             ∧ (findWords text).get? i ≠ (lines.flatMap findWords).get? i))
    ∧ CapImg.broken_words none "hello world".data ["hel-".data, "lo world".data]
        = some (true, ["hello".data, "world".data])
    ∧ CapImg.broken_words none "hello world".data ["hello".data, "world".data]
        = some (false, ["hello".data, "world".data])
    ∧ (∀ (ws : List (List Char)) (t2 : List Char), ws ≠ [] →
        CapImg.broken_words (some ws) text lines = CapImg.broken_words (some ws) t2 lines
        ∧ ∀ b c, CapImg.broken_words (some ws) text lines = some (b, c) → c = ws) := by
  refine ⟨⟨pwB (findWords text) (lines.flatMap findWords),
      broken_words_none text lines hT,
      pwB_iff (findWords text) (lines.flatMap findWords)⟩,
    by decide, by decide, ?_⟩
  intro ws t2 hws
  have hie : ws.isEmpty = false := by
    cases ws with
    | nil => exact absurd rfl hws
    | cons a as => rfl
  constructor
  · simp [CapImg.broken_words, hie]
  · intro b c hbc
    simp only [CapImg.broken_words, hie, Bool.false_eq_true, if_false] at hbc
    obtain ⟨a, _, h2⟩ := Option.map_eq_some'.mp hbc
    exact ((Prod.mk.injEq _ _ _ _).mp h2).2.symm ▸ rfl

/-- Witness for `C6_broken_words_detector` at the `"hello world"` input. -/
theorem C6_broken_words_detector_witness :
    findWords "hello world".data ≠ []
    ∧ CapImg.broken_words none "hello world".data ["hel-".data, "lo world".data]
        = some (true, ["hello".data, "world".data]) :=
  ⟨by decide,
   (C6_broken_words_detector "hello world".data ["hel-".data, "lo world".data]
      (by decide)).2.1⟩
